import Mathlib

/-!
# Verification of the tide node runtime against its specification

Shallow embedding of the core of the `tide` robotics middleware
(`tide/core/node.py`, `tide/core/rosbag.py`, `tide/core/utils.py`,
`tide/components/pose_estimator.py`) together with proofs and refutations of
the specification claims about key construction, the latest-value cache,
the worker loop, the recorder hook, subscription bookkeeping, session
handling, replay timing, the EKF update and the launcher.

Python dictionaries are modelled as total functions into `Option`; a Python
value that may be `None` is modelled as an `Option` as well, so a cache slot
has type `Option (Option α)`: the outer layer is dict membership, the inner
layer is the Python value itself.
-/

namespace Tide

/-! ## Key construction: `BaseNode._make_key` (tide/core/node.py)

```python
if key.startswith('/'):
    return key
if self.GROUP and not key.startswith(f"{self.GROUP}/"):
    return f"/{self.ROBOT_ID}/{self.GROUP}/{key}"
return f"/{self.ROBOT_ID}/{key}"
```
-/

/-- Python's `str.startswith`, computed on the character list of the string
(kernel-reducible, unlike `String.startsWith`). -/
def startswith (s pat : String) : Bool :=
  pat.toList.isPrefixOf s.toList

/-- Shallow embedding of `BaseNode._make_key`.  A Python string is truthy
exactly when it is non-empty, which gives the `group ≠ ""` test. -/
def make_key (robotId group key : String) : String :=
  if startswith key "/" then key
  else if group ≠ "" ∧ ¬ startswith key (group ++ "/") then
    "/" ++ robotId ++ "/" ++ group ++ "/" ++ key
  else
    "/" ++ robotId ++ "/" ++ key

example : make_key "robot" "" "/a" = "/a" := by decide
example : make_key "testbot" "test" "topic" = "/testbot/test/topic" := by decide
example : make_key "testbot" "" "topic" = "/testbot/topic" := by decide

/-! ## Node messaging state (tide/core/node.py)

Per-node state relevant to `take`, `subscribe`, `register_callback` and the
`_on_sample` closure.  `latestValues` models `self._latest_values`
(dict: full key ↦ Python value, where the value itself may be `None`),
`callbacks` models `self._callbacks` (dict: full key ↦ list of callbacks,
callbacks identified by `Nat`), `subscribers` models membership in
`self._subscribers`, and `transportSubs` counts how many transport-level
subscriptions (`self.z.subscribe` calls) the node has created so far. -/

structure NodeState (α : Type) where
  ROBOT_ID : String
  GROUP : String
  latestValues : String → Option (Option α)
  callbacks : String → List Nat
  subscribers : String → Bool
  transportSubs : Nat

/-- `self._make_key(key)` on the node's own ids. -/
def NodeState.makeKey {α : Type} (s : NodeState α) (key : String) : String :=
  make_key s.ROBOT_ID s.GROUP key

/-- Shallow embedding of `BaseNode.take`:

```python
full_key = self._make_key(key)
if full_key in self._latest_values:
    value = self._latest_values[full_key]
    self._latest_values[full_key] = None  # Consume the value
    return value
return None
```

Returns the Python return value together with the updated node state. -/
def NodeState.take {α : Type} (s : NodeState α) (key : String) :
    Option α × NodeState α :=
  let fk := s.makeKey key
  match s.latestValues fk with
  | some v =>
      (v, { s with latestValues := fun k => if k = fk then some none else s.latestValues k })
  | none => (none, s)

/-- Shallow embedding of the `_on_sample` closure installed by
`BaseNode.subscribe`: stores `sample.value` (a Python value, possibly `None`)
into `self._latest_values[full_key]`.  The callback invocations it also
performs do not modify the node state. -/
def NodeState.onSample {α : Type} (s : NodeState α) (fullKey : String)
    (v : Option α) : NodeState α :=
  { s with latestValues := fun k => if k = fullKey then some v else s.latestValues k }

/-- Shallow embedding of `BaseNode.subscribe`: unconditionally calls
`self.z.subscribe(full_key, _on_sample)` (one more transport-level
subscription) and overwrites `self._subscribers[full_key]` with the new
handle. -/
def NodeState.subscribe {α : Type} (s : NodeState α) (key : String) : NodeState α :=
  let fk := s.makeKey key
  { s with
    transportSubs := s.transportSubs + 1
    subscribers := fun k => if k = fk then true else s.subscribers k }

/-- Shallow embedding of `BaseNode.register_callback`: appends the callback
to `self._callbacks[full_key]` (creating the entry if absent, which the
total-function model renders as appending to the default `[]`), then
subscribes only when `full_key not in self._subscribers`. -/
def NodeState.register_callback {α : Type} (s : NodeState α) (key : String)
    (cb : Nat) : NodeState α :=
  let fk := s.makeKey key
  let s1 := { s with
    callbacks := fun k => if k = fk then s.callbacks fk ++ [cb] else s.callbacks k }
  if s1.subscribers fk then s1 else s1.subscribe key

/-- A freshly constructed node with the class defaults of `BaseNode`
(`ROBOT_ID = "robot"`, `GROUP = ""`, empty dictionaries, no transport
subscriptions), payload type `Nat`. -/
def initNode : NodeState Nat :=
  { ROBOT_ID := "robot"
    GROUP := ""
    latestValues := fun _ => none
    callbacks := fun _ => []
    subscribers := fun _ => false
    transportSubs := 0 }

/-! ## Worker loop (tide/core/node.py, `BaseNode.run`)

```python
self._running = True
while self._running:
    await self.step()
    ...sleep to maintain hz...
```

The body contains no `try`/`except`.  One call to the user's `step` either
returns normally (reporting the value of `self._running` seen at the next
loop test, so a `stop` request during the iteration is `ok false`) or raises
an exception, modelled by `StepOut.err`.  `run` is given fuel because the
Python loop may run forever. -/

inductive StepOut where
  | ok (running : Bool)
  | err (e : String)
deriving DecidableEq

inductive RunResult where
  | stopped (stepsExecuted : Nat)
  | raised (e : String) (stepsExecuted : Nat)
  | outOfFuel (stepsExecuted : Nat)
deriving DecidableEq

/-- Shallow embedding of `BaseNode.run`: the scheduled iteration `n` runs
`step n`; an exception propagates out of the loop (there is no handler), a
normal return with the running flag cleared exits the loop, otherwise the
loop continues with the next iteration. -/
def run (step : Nat → StepOut) : Nat → Nat → RunResult
  | 0, n => .outOfFuel n
  | fuel + 1, n =>
    match step n with
    | .err e => .raised e (n + 1)
    | .ok true => run step fuel (n + 1)
    | .ok false => .stopped (n + 1)

/-! ## Publishing and the recorder (tide/core/node.py `BaseNode.put`,
tide/core/rosbag.py `record_zenoh_message` / `set_active_recorder`)

`PubState` holds the process-wide pieces both functions can see: whether a
recorder has been installed via `set_active_recorder`, the contents of the
recorder's queue, and the messages published on the transport. -/

structure PubState (α : Type) where
  activeRecorder : Bool
  recorderQueue : List (String × α)
  published : List (String × α)

/-- Shallow embedding of `BaseNode.put`:

```python
full_key = self._make_key(key)
await self.z.put(full_key, value)
```

The body only publishes on the transport; it contains no call into
`tide.core.rosbag`. -/
def BaseNode_put {α : Type} (robotId group : String) (p : PubState α)
    (key : String) (v : α) : PubState α :=
  { p with published := p.published ++ [(make_key robotId group key, v)] }

/-- Shallow embedding of `record_zenoh_message` (tide/core/rosbag.py): when a
recorder is active, enqueue the pair for the writer thread, else do
nothing.  (Present in the code base, but `BaseNode.put` never calls it.) -/
def record_zenoh_message {α : Type} (p : PubState α) (topic : String) (v : α) :
    PubState α :=
  if p.activeRecorder then
    { p with recorderQueue := p.recorderQueue ++ [(topic, v)] }
  else p

/-! ## Session handling (tide/core/node.py, `BaseNode.__init__`)

```python
self.z = zenoh.open()   # One session per process
...
if "robot_id" in self.config:
    self.ROBOT_ID = self.config["robot_id"]
```

`zenoh.open()` creates a fresh transport session on every call; the process
state counts the sessions opened so far, and a node's `z` handle is the index
of the session its constructor opened. -/

structure ProcessState where
  sessionsOpened : Nat
deriving DecidableEq

structure NodeHandle where
  ROBOT_ID : String
  session : Nat
deriving DecidableEq

/-- `zenoh.open()`: returns a handle to a fresh session. -/
def zenoh_open (p : ProcessState) : Nat × ProcessState :=
  (p.sessionsOpened, { sessionsOpened := p.sessionsOpened + 1 })

/-- Shallow embedding of `BaseNode.__init__` (the parts touching the session
and the robot id): opens a session and stores its handle, then overrides
`ROBOT_ID` when the config provides one. -/
def BaseNode_init (p : ProcessState) (configRobotId : Option String) :
    NodeHandle × ProcessState :=
  let zp := zenoh_open p
  let rid := match configRobotId with
    | some r => r
    | none => "robot"
  (⟨rid, zp.1⟩, zp.2)

/-! ## Replay timing (tide/core/rosbag.py, `RosbagPlayer._run`, realtime mode)

```python
if self.realtime:
    if start_timestamp is None:
        start_timestamp = timestamp
        start_wall = time.time()
    else:
        delay = (timestamp - start_timestamp) / 1_000_000_000
        elapsed = time.time() - start_wall
        sleep_time = delay - elapsed
        if sleep_time > 0:
            self._sleep_with_stop(sleep_time)
```

Clock-passing model over exact rational wall time, with no stop request (so
`_sleep_with_stop d` sleeps the full `d`).  `proc i` is the wall time spent
between the previous emission and the timing check of message `i` (reader
yield, CDR deserialization, publisher lookup).  `ts` is the list of bag
timestamps in nanoseconds; emissions are the wall times at which
`publisher.put` runs. -/

def nsToSec (x : ℚ) : ℚ := x / 1000000000

/-- `sleep_time = delay - elapsed; if sleep_time > 0: sleep(sleep_time)`:
with the timing check happening at wall time `now1` and the message's target
wall time `target`, the emission happens at `target` when the sleep is
positive and at `now1` (immediately) otherwise. -/
def emitTime (now1 target : ℚ) : ℚ :=
  if 0 < target - now1 then target else now1

/-- Emission times for the messages after the first, given the fixed pair
`(t0bag, t0wall)`, the index of the next message and the current wall
clock. -/
def playGo (proc : Nat → ℚ) (t0bag t0wall : ℚ) : Nat → List ℚ → ℚ → List ℚ
  | _, [], _ => []
  | i, t :: rest, now =>
    emitTime (now + proc i) (t0wall + nsToSec (t - t0bag)) ::
      playGo proc t0bag t0wall (i + 1) rest
        (emitTime (now + proc i) (t0wall + nsToSec (t - t0bag)))

/-- Emission times of `RosbagPlayer._run` in realtime mode: the first message
fixes `(t0bag, t0wall)` and is emitted immediately; the rest go through the
delay computation. -/
def playEmits (proc : Nat → ℚ) (ts : List ℚ) (w : ℚ) : List ℚ :=
  match ts with
  | [] => []
  | t0 :: rest =>
    let w0 := w + proc 0
    w0 :: playGo proc t0 w0 1 rest w0

/-! ## EKF update (tide/components/pose_estimator.py)

`SE2Estimator.update` and `SE3Estimator.update` are textually identical up to
the group (`SE2`/`SE3`) and the tangent dimension (3/6):

```python
err = (self.pose.inverse() * measurement).log()
S = self.P + self.R
K = self.P @ np.linalg.inv(S)
delta = K @ err
self.pose = self.pose * SE2.exp(delta)
self.P = (np.eye(3) - K) @ self.P
```

The group operations live in `tide/core/geometry.py` and are abstracted as a
record of operations; matrices are exact rational matrices and
`np.linalg.inv` is the inverse by adjugate, which agrees with the true
inverse exactly when the determinant is a unit (`np.linalg.inv` raises
otherwise). -/

structure LieOps (G : Type) (n : ℕ) where
  mul : G → G → G
  inv : G → G
  exp : (Fin n → ℚ) → G
  log : G → Fin n → ℚ

structure EKFState (G : Type) (n : ℕ) where
  pose : G
  P : Matrix (Fin n) (Fin n) ℚ
  Q : Matrix (Fin n) (Fin n) ℚ
  R : Matrix (Fin n) (Fin n) ℚ

/-- `np.linalg.inv` on an invertible matrix: `det⁻¹ • adjugate`. -/
def npInv {n : ℕ} (A : Matrix (Fin n) (Fin n) ℚ) : Matrix (Fin n) (Fin n) ℚ :=
  (A.det)⁻¹ • A.adjugate

/-- Shallow embedding of `SE2Estimator.update` / `SE3Estimator.update`,
generic in the group and the tangent dimension. -/
def ekfUpdate {G : Type} {n : ℕ} (ops : LieOps G n) (st : EKFState G n)
    (measurement : G) : EKFState G n :=
  let err := ops.log (ops.mul (ops.inv st.pose) measurement)
  let S := st.P + st.R
  let K := st.P * npInv S
  let delta := K.mulVec err
  { st with
    pose := ops.mul st.pose (ops.exp delta)
    P := (1 - K) * st.P }

/-- `SE2Estimator.update`: the `n = 3` instance. -/
def SE2Estimator_update {G : Type} (ops : LieOps G 3) (st : EKFState G 3)
    (measurement : G) : EKFState G 3 :=
  ekfUpdate ops st measurement

/-- `SE3Estimator.update`: the `n = 6` instance. -/
def SE3Estimator_update {G : Type} (ops : LieOps G 6) (st : EKFState G 6)
    (measurement : G) : EKFState G 6 :=
  ekfUpdate ops st measurement

/-! ## Launcher (tide/core/utils.py)

```python
def import_class(class_path):
    module_path, class_name = class_path.rsplit('.', 1)
    module = importlib.import_module(f"tide.{module_path}")
    return getattr(module, class_name)

async def launch_from_config(config):
    nodes = []
    session_config = config.get("session", {})   # TODO: unused
    for node_config in config.get("nodes", []):
        node_type = node_config.get("type")
        params = node_config.get("params", {})
        node = await create_node(node_type, params)
        node.start()
        nodes.append(node)
    return nodes
```

Dynamic importing is modelled by a registry `reg : module path → class name →
Bool` saying which classes resolve.  `env` models `os.environ`; the launcher
body never reads it.  `spawned` is the effect trace of auxiliary processes
the launcher spawns: the source spawns none. -/

structure NodeEntry (β : Type) where
  typePath : Option String
  params : β

structure TideConfig (β : Type) where
  sessionMode : Option String
  nodes : List (NodeEntry β)

structure LaunchedNode (β : Type) where
  modulePath : String
  className : String
  config : β
  started : Bool
deriving DecidableEq

structure AuxProc where
  tag : String
deriving DecidableEq

structure LaunchResult (β : Type) where
  nodes : List (LaunchedNode β)
  spawned : List AuxProc
deriving DecidableEq

/-- Python's `s.rsplit('.', 1)` unpacked into two variables: split at the
last `'.'`; fails (raises `ValueError`) when the string has no `'.'`. -/
def rsplitDot (s : String) : Option (String × String) :=
  let rev := s.toList.reverse
  if rev.contains '.' then
    some (String.mk (rev.drop (rev.indexOf '.' + 1)).reverse,
          String.mk (rev.take (rev.indexOf '.')).reverse)
  else none

/-- Shallow embedding of `import_class`: split off the class name, resolve
the module against the `tide.` package, and look the class up in it. -/
def import_class (reg : String → String → Bool) (classPath : String) :
    Option (String × String) :=
  match rsplitDot classPath with
  | none => none
  | some mc => if reg ("tide." ++ mc.1) mc.2 then some mc else none

/-- Shallow embedding of `create_node`: resolve the class and instantiate it
with `config = params` (not yet started). -/
def create_node {β : Type} (reg : String → String → Bool) (nodeType : String)
    (params : β) : Option (LaunchedNode β) :=
  (import_class reg nodeType).map fun mc =>
    { modulePath := mc.1, className := mc.2, config := params, started := false }

/-- `node.start()`. -/
def node_start {β : Type} (nd : LaunchedNode β) : LaunchedNode β :=
  { nd with started := true }

/-- The node loop of `launch_from_config`: resolve, instantiate, start and
collect each entry in order; a missing or unresolvable type raises. -/
def launchNodes {β : Type} (reg : String → String → Bool) :
    List (NodeEntry β) → Except String (List (LaunchedNode β))
  | [] => Except.ok []
  | e :: rest =>
    match e.typePath with
    | none => Except.error "node type is not a string"
    | some t =>
      match create_node reg t e.params with
      | none => Except.error ("cannot resolve node type " ++ t)
      | some nd => (launchNodes reg rest).map fun tail => node_start nd :: tail

/-- Shallow embedding of `launch_from_config`: the session block is read but
unused (`TODO` in the source), the environment is never consulted, no
auxiliary process is spawned, and the only result is the node list. -/
def launch_from_config {β : Type} (reg : String → String → Bool)
    (_env : String → Option String) (cfg : TideConfig β) :
    Except String (LaunchResult β) :=
  (launchNodes reg cfg.nodes).map fun ns => { nodes := ns, spawned := [] }

/-! Concrete instances used by counterexamples and witnesses. -/

/-- A registry exposing `tide.components.PoseEstimatorNode` only. -/
def regDemo : String → String → Bool := fun m c =>
  m == "tide.components" && c == "PoseEstimatorNode"

/-- An environment with `TIDE_RECORD_BAG` set. -/
def envRecord : String → Option String := fun k =>
  if k = "TIDE_RECORD_BAG" then some "/tmp/bag" else none

/-- A one-node configuration. -/
def cfgDemo : TideConfig Unit :=
  { sessionMode := some "peer"
    nodes := [{ typePath := some "components.PoseEstimatorNode", params := () }] }

/-- The translation group `(ℝ¹, +)` with identity `exp`/`log`: a concrete
Lie group instantiating the abstract operations of the estimator. -/
def transOps : LieOps (Fin 1 → ℚ) 1 :=
  { mul := fun a b => a + b
    inv := fun a => -a
    exp := fun v => v
    log := fun g => g }

/-- A concrete estimator state: identity pose, identity covariances. -/
def ekfDemoState : EKFState (Fin 1 → ℚ) 1 :=
  { pose := 0, P := 1, Q := 1, R := 1 }

/-! ## Claim C1: key construction -/

/-- C1, counterexample.  The claim says a leading-slash topic is returned
with the slash stripped and that constructed keys carry no leading slash;
`_make_key` keeps the slash in both cases (as the repository's own
`test_make_key` expects). -/
theorem make_key_claim_false :
    make_key "robot" "" "/a" = "/a" ∧ ("/a" : String) ≠ "a" ∧
    make_key "rb" "g" "t" = "/rb/g/t" ∧ ("/rb/g/t" : String) ≠ "rb/g/t" := by
  decide

/-- C1, amended.  For every robot id, group and topic: a topic beginning
with `/` is returned verbatim, slash kept; otherwise, when the group is
non-empty and the topic does not already begin with `group + "/"`, the
result is `"/" + robot_id + "/" + group + "/" + topic`; otherwise
`"/" + robot_id + "/" + topic` — the constructed keys carry a leading
slash. -/
theorem make_key_spec (robotId group topic : String) :
    (startswith topic "/" = true → make_key robotId group topic = topic) ∧
    (startswith topic "/" = false → group ≠ "" →
      startswith topic (group ++ "/") = false →
      make_key robotId group topic =
        "/" ++ robotId ++ "/" ++ group ++ "/" ++ topic) ∧
    (startswith topic "/" = false →
      (group = "" ∨ startswith topic (group ++ "/") = true) →
      make_key robotId group topic = "/" ++ robotId ++ "/" ++ topic) := by
  unfold make_key
  refine ⟨fun h => by simp [h], fun h hg hs => by simp [h, hg, hs],
    fun h hor => ?_⟩
  rcases hor with hg | hs
  · simp [h, hg]
  · simp [h, hs]

/-- C1, witness for the amended statement: all three branches evaluated at
concrete inputs. -/
theorem make_key_spec_witness :
    make_key "robot" "" "/a" = "/a" ∧
    make_key "rb" "g" "t" = "/rb/g/t" ∧
    make_key "rb" "g" "g/t" = "/rb/g/t" :=
  ⟨(make_key_spec "robot" "" "/a").1 (by decide),
   (make_key_spec "rb" "g" "t").2.1 (by decide) (by decide) (by decide),
   (make_key_spec "rb" "g" "g/t").2.2 (by decide) (Or.inr (by decide))⟩

/-! ## Claim C2: take-consume semantics -/

/-- C2.  After `take(topic)` returns, an immediately following `take(topic)`
returns `None`; and when a new sample for the topic's full key arrives
between the two calls, the second `take` returns that sample's value.  The
read-and-clear is a single transition of the model. -/
theorem take_consumes (α : Type) (s : NodeState α) (key : String) :
    ((s.take key).2.take key).1 = none ∧
    ∀ v : α,
      (((s.take key).2.onSample ((s.take key).2.makeKey key) (some v)).take
        key).1 = some v := by
  unfold NodeState.take NodeState.onSample NodeState.makeKey
  refine ⟨?_, fun v => ?_⟩ <;>
    cases h : s.latestValues (make_key s.ROBOT_ID s.GROUP key) <;> simp [h]

/-! ## Claim C10: take never raises, and a `None` payload is invisible -/

/-- C10.  `take` is total: with no cached entry for the full key it returns
`None` and leaves the state unchanged; a delivered sample whose value is
`None` makes `take` return `None`; and the state after delivering a `None`
sample is exactly the state after delivering any value and consuming it, so
the two are indistinguishable from the `take` interface onwards. -/
theorem take_never_raises (α : Type) (s : NodeState α) (key : String) (v : α) :
    (s.latestValues (s.makeKey key) = none → s.take key = (none, s)) ∧
    ((s.onSample (s.makeKey key) none).take key).1 = none ∧
    s.onSample (s.makeKey key) none =
      ((s.onSample (s.makeKey key) (some v)).take key).2 := by
  unfold NodeState.take NodeState.onSample NodeState.makeKey
  refine ⟨fun h => ?_, ?_, ?_⟩
  · simp [h]
  · simp
  · simp only []
    congr 1
    funext k
    by_cases hk : k = make_key s.ROBOT_ID s.GROUP key <;> simp [hk]

/-- C10, witness: a fresh node has no cached entry, and `take` returns
`None` without touching the state. -/
theorem take_never_raises_witness :
    initNode.take "t" = (none, initNode) :=
  (take_never_raises Nat initNode "t" 0).1 rfl

/-! ## Claim C5: transport-subscription deduplication -/

/-- C5, counterexample.  A second direct `subscribe` on a key the node is
already subscribed to creates a second transport-level subscription
(`self.z.subscribe` is called unconditionally, and the previous handle in
`self._subscribers` is overwritten). -/
theorem subscribe_not_deduplicated :
    (initNode.subscribe "t").subscribers (initNode.makeKey "t") = true ∧
    ((initNode.subscribe "t").subscribe "t").transportSubs = 2 := by
  decide

/-- C5, amended.  Only `register_callback` deduplicates: it creates a
transport subscription exactly when the node is not yet subscribed to the
full key, and all callbacks for that key accumulate in one shared list; a
direct `subscribe` call always creates a new transport-level
subscription. -/
theorem subscription_bookkeeping (α : Type) (s : NodeState α) (key : String)
    (cb : Nat) :
    ((s.subscribe key).transportSubs = s.transportSubs + 1) ∧
    (s.subscribers (s.makeKey key) = true →
      (s.register_callback key cb).transportSubs = s.transportSubs) ∧
    (s.subscribers (s.makeKey key) = false →
      (s.register_callback key cb).transportSubs = s.transportSubs + 1) ∧
    (s.register_callback key cb).callbacks (s.makeKey key) =
      s.callbacks (s.makeKey key) ++ [cb] := by
  unfold NodeState.register_callback NodeState.subscribe NodeState.makeKey
  refine ⟨rfl, fun h => ?_, fun h => ?_, ?_⟩
  · simp [h]
  · simp [h]
  · by_cases h : s.subscribers (make_key s.ROBOT_ID s.GROUP key) <;> simp [h]

/-- C5, witness for the amended statement: both register_callback branches
at concrete states. -/
theorem subscription_bookkeeping_witness :
    ((initNode.subscribe "t").register_callback "t" 0).transportSubs = 1 ∧
    (initNode.register_callback "t" 0).transportSubs = 1 := by
  constructor
  · have h :=
      (subscription_bookkeeping Nat (initNode.subscribe "t") "t" 0).2.1 (by decide)
    simpa using h
  · have h :=
      (subscription_bookkeeping Nat initNode "t" 0).2.2.1 (by decide)
    simpa using h

/-! ## Claim C3: exceptions from `step` -/

/-- C3, counterexample.  With a `step` that raises on its first scheduled
iteration and a node that never requests stop, the worker loop terminates
with the exception after exactly one `step` call: nothing is caught, nothing
continues. -/
theorem run_dies_on_step_error :
    run (fun _ => StepOut.err "boom") 5 0 = RunResult.raised "boom" 1 := by
  decide

/-- Error propagation through the worker loop, generalized over the start
index. -/
lemma run_propagates_aux (step : Nat → StepOut) (e : String) :
    ∀ k fuel n, (∀ i, i < k → step (n + i) = StepOut.ok true) →
      step (n + k) = StepOut.err e → k < fuel →
      run step fuel n = RunResult.raised e (n + k + 1) := by
  intro k
  induction k with
  | zero =>
    intro fuel n hok herr hfuel
    cases fuel with
    | zero => omega
    | succ f =>
      simp only [run]
      rw [show n + 0 = n from rfl] at herr
      rw [herr]
  | succ k ih =>
    intro fuel n hok herr hfuel
    cases fuel with
    | zero => omega
    | succ f =>
      have h0 : step n = StepOut.ok true := by
        have h := hok 0 (Nat.succ_pos k)
        simpa using h
      simp only [run, h0]
      have harith : n + 1 + k + 1 = n + (k + 1) + 1 := by omega
      rw [← harith]
      refine ih f (n + 1) (fun i hi => ?_) ?_ (by omega)
      · have h := hok (i + 1) (by omega)
        have h2 : n + (i + 1) = n + 1 + i := by omega
        rwa [h2] at h
      · have h2 : n + (k + 1) = n + 1 + k := by omega
        rwa [h2] at herr

/-- C3, amended.  If the user's `step` raises at scheduled iteration `k`
(all earlier iterations returning normally with the running flag still set),
the exception propagates out of `BaseNode.run`: the worker terminates with
that exception after `k + 1` `step` invocations, even though stop was never
requested.  The loop only continues past an iteration whose `step` returned
normally. -/
theorem run_propagates_step_error (step : Nat → StepOut) (k fuel : Nat)
    (e : String)
    (hok : ∀ i, i < k → step i = StepOut.ok true)
    (herr : step k = StepOut.err e)
    (hfuel : k < fuel) :
    run step fuel 0 = RunResult.raised e (k + 1) := by
  have h := run_propagates_aux step e k fuel 0
    (fun i hi => by simpa using hok i hi) (by simpa using herr) hfuel
  simpa using h

/-- C3, witness for the amended statement: two clean iterations, then a
raise; the loop dies at the third step. -/
theorem run_propagates_step_error_witness :
    run (fun i => if i < 2 then StepOut.ok true else StepOut.err "x") 5 0 =
      RunResult.raised "x" 3 :=
  run_propagates_step_error _ 2 5 "x"
    (fun i hi => by
      have h : i = 0 ∨ i = 1 := by omega
      rcases h with h | h <;> subst h <;> rfl)
    rfl (by omega)

/-! ## Claim C4: `put` and the active recorder -/

/-- C4 (code-bug evidence).  `BaseNode.put` only publishes on the transport:
it leaves the active recorder's queue untouched even when a recorder is
installed, although `record_zenoh_message` — which nothing in the runtime
calls — would have enqueued the message.  The repository's own
record/playback test expects published traffic to be recorded. -/
theorem put_ignores_recorder (α : Type) (robotId group : String)
    (p : PubState α) (key : String) (v : α) :
    (BaseNode_put robotId group p key v).recorderQueue = p.recorderQueue ∧
    (BaseNode_put robotId group p key v).activeRecorder = p.activeRecorder ∧
    (BaseNode_put robotId group p key v).published =
      p.published ++ [(make_key robotId group key, v)] ∧
    (BaseNode_put "robot" ""
      ({ activeRecorder := true, recorderQueue := [], published := [] } :
        PubState Nat) "topic" 7).recorderQueue = [] ∧
    (record_zenoh_message
      ({ activeRecorder := true, recorderQueue := [], published := [] } :
        PubState Nat) "/robot/topic" 7).recorderQueue = [("/robot/topic", 7)] :=
  ⟨rfl, rfl, rfl, rfl, rfl⟩

/-! ## Claim C6: one transport session per process -/

/-- C6 (code-bug evidence).  Every `BaseNode.__init__` calls `zenoh.open()`,
so a process that constructs two nodes has opened two transport sessions and
the two nodes hold handles to different sessions — contrary to the inline
comment `# One session per process` and to the claim. -/
theorem two_nodes_two_sessions :
    (BaseNode_init (BaseNode_init ⟨0⟩ none).2 none).2.sessionsOpened = 2 ∧
    (BaseNode_init ⟨0⟩ none).1.session ≠
      (BaseNode_init (BaseNode_init ⟨0⟩ none).2 none).1.session ∧
    ∀ (p : ProcessState) (c : Option String),
      (BaseNode_init p c).2.sessionsOpened = p.sessionsOpened + 1 :=
  ⟨rfl, by decide, fun p c => rfl⟩

/-! ## Claim C7: realtime replay timing -/

/-- The emission-time branch is a `max`: sleep up to the target, or go
immediately when already late. -/
lemma emitTime_eq_max (a b : ℚ) : emitTime a b = max a b := by
  unfold emitTime
  rcases le_or_lt b a with h | h
  · rw [if_neg (by linarith), max_eq_left h]
  · rw [if_pos (by linarith), max_eq_right h.le]

/-- The player emits every message it reads. -/
lemma playGo_length (proc : Nat → ℚ) (tb tw : ℚ) :
    ∀ (rest : List ℚ) (i : Nat) (now : ℚ),
      (playGo proc tb tw i rest now).length = rest.length := by
  intro rest
  induction rest with
  | nil => intro i now; rfl
  | cons t rest ih => intro i now; simp [playGo, ih]

/-- Head of the tail-phase emission list. -/
lemma playGo_head (proc : Nat → ℚ) (tb tw t : ℚ) (rest : List ℚ) (i : Nat)
    (now : ℚ) :
    (playGo proc tb tw i (t :: rest) now).getD 0 0 =
      max (now + proc i) (tw + nsToSec (t - tb)) := by
  simp [playGo, emitTime_eq_max]

/-- Chain law of the tail-phase emission list: each emission is the later of
"as soon as the pipeline delivers" and the message's own fixed target. -/
lemma playGo_chain (proc : Nat → ℚ) (tb tw : ℚ) :
    ∀ (rest : List ℚ) (i : Nat) (now : ℚ) (j : Nat), j + 1 < rest.length →
      (playGo proc tb tw i rest now).getD (j + 1) 0 =
        max ((playGo proc tb tw i rest now).getD j 0 + proc (i + j + 1))
            (tw + nsToSec (rest.getD (j + 1) 0 - tb)) := by
  intro rest
  induction rest with
  | nil => intro i now j hj; simp at hj
  | cons t rest ih =>
    intro i now j hj
    cases j with
    | zero =>
      cases rest with
      | nil => simp at hj
      | cons t2 rest2 =>
        simp [playGo, emitTime_eq_max]
    | succ j2 =>
      have hj' : j2 + 1 < rest.length := by
        simpa using hj
      simp only [playGo, List.getD_cons_succ]
      rw [ih (i + 1) _ j2 hj']
      have harith : i + 1 + j2 + 1 = i + (j2 + 1) + 1 := by omega
      rw [harith]

/-- C7.  In realtime mode the first emission fixes `(t0_bag, t0_wall)`
(position 0 of the bag-timestamp and emission lists); every later message
`j + 1` is emitted at the later of (a) the moment the pipeline delivers it
and (b) the fixed target `t0_wall + (t_{j+1} − t0_bag)` — so never earlier
than its target, the target of each message is computed against the fixed
pair only (no compensation from other messages' lateness), and a message
whose target has already passed is emitted immediately. -/
theorem player_realtime_timing (proc : Nat → ℚ) (ts : List ℚ) (w : ℚ)
    (j : Nat) (hj : j + 1 < ts.length) :
    (playEmits proc ts w).length = ts.length ∧
    (playEmits proc ts w).getD (j + 1) 0 =
      max ((playEmits proc ts w).getD j 0 + proc (j + 1))
          ((playEmits proc ts w).getD 0 0 +
            nsToSec (ts.getD (j + 1) 0 - ts.getD 0 0)) ∧
    (playEmits proc ts w).getD 0 0 +
        nsToSec (ts.getD (j + 1) 0 - ts.getD 0 0) ≤
      (playEmits proc ts w).getD (j + 1) 0 ∧
    ((playEmits proc ts w).getD 0 0 +
          nsToSec (ts.getD (j + 1) 0 - ts.getD 0 0) ≤
        (playEmits proc ts w).getD j 0 + proc (j + 1) →
      (playEmits proc ts w).getD (j + 1) 0 =
        (playEmits proc ts w).getD j 0 + proc (j + 1)) := by
  cases ts with
  | nil => simp at hj
  | cons t0 rest =>
    have hlen : (playEmits proc (t0 :: rest) w).length = (t0 :: rest).length := by
      simp [playEmits, playGo_length]
    have hmain : (playEmits proc (t0 :: rest) w).getD (j + 1) 0 =
        max ((playEmits proc (t0 :: rest) w).getD j 0 + proc (j + 1))
          ((playEmits proc (t0 :: rest) w).getD 0 0 +
            nsToSec ((t0 :: rest).getD (j + 1) 0 - (t0 :: rest).getD 0 0)) := by
      cases j with
      | zero =>
        cases rest with
        | nil => simp at hj
        | cons t1 rest2 =>
          simp only [playEmits, List.getD_cons_succ, List.getD_cons_zero]
          rw [playGo_head]
      | succ j2 =>
        have hj' : j2 + 1 < rest.length := by simpa using hj
        simp only [playEmits, List.getD_cons_succ, List.getD_cons_zero]
        rw [playGo_chain proc t0 (w + proc 0) rest 1 (w + proc 0) j2 hj']
        have harith : 1 + j2 + 1 = j2 + 1 + 1 := by omega
        rw [harith]
    refine ⟨hlen, hmain, ?_, ?_⟩
    · rw [hmain]; exact le_max_right _ _
    · intro hle
      rw [hmain]
      exact max_eq_left hle

/-- C7, witness: a two-message bag, one second of processing, a 3-second
bag gap. -/
theorem player_realtime_timing_witness :
    (playEmits (fun _ => 1) [0, 3000000000] 0).length = 2 :=
  (player_realtime_timing (fun _ => 1) [0, 3000000000] 0 0 (by decide)).1

/-! ## Claim C8: the EKF measurement update -/

/-- C8.  For the estimator update (one generic function instantiated by
`SE2Estimator_update` at `n = 3` and `SE3Estimator_update` at `n = 6`):
under the claim's precondition that `P` and `R` are symmetric and `S = P + R`
is invertible, the computed gain is `K = P · S⁻¹` for the true (two-sided)
inverse of `S`, the mean is replaced by `X · exp(K · r)` with residual
`r = log(X⁻¹ · Z)`, the covariance is replaced by `(I − K) · P`, and `Q`,
`R` are untouched. -/
theorem ekf_update_formula (G : Type) (n : ℕ) (ops : LieOps G n)
    (st : EKFState G n) (Z : G)
    (hP : st.P.transpose = st.P) (hR : st.R.transpose = st.R)
    (hS : IsUnit (st.P + st.R).det) :
    ∃ Sinv : Matrix (Fin n) (Fin n) ℚ,
      (st.P + st.R) * Sinv = 1 ∧ Sinv * (st.P + st.R) = 1 ∧
      ekfUpdate ops st Z =
        { pose := ops.mul st.pose (ops.exp ((st.P * Sinv).mulVec
            (ops.log (ops.mul (ops.inv st.pose) Z))))
          P := (1 - st.P * Sinv) * st.P
          Q := st.Q
          R := st.R } := by
  have hdet : (st.P + st.R).det ≠ 0 := by
    intro h0
    rw [h0] at hS
    exact hS.ne_zero rfl
  refine ⟨npInv (st.P + st.R), ?_, ?_, rfl⟩
  · unfold npInv
    rw [Matrix.mul_smul, Matrix.mul_adjugate, smul_smul,
      inv_mul_cancel₀ hdet, one_smul]
  · unfold npInv
    rw [Matrix.smul_mul, Matrix.adjugate_mul, smul_smul,
      inv_mul_cancel₀ hdet, one_smul]

/-- C8, witness: the update applied on the translation group with identity
covariances. -/
theorem ekf_update_formula_witness :
    ∃ Sinv : Matrix (Fin 1) (Fin 1) ℚ,
      (ekfDemoState.P + ekfDemoState.R) * Sinv = 1 ∧
      Sinv * (ekfDemoState.P + ekfDemoState.R) = 1 ∧
      ekfUpdate transOps ekfDemoState (fun _ => 3) =
        { pose := transOps.mul ekfDemoState.pose
            (transOps.exp ((ekfDemoState.P * Sinv).mulVec
              (transOps.log (transOps.mul (transOps.inv ekfDemoState.pose)
                (fun _ => 3)))))
          P := (1 - ekfDemoState.P * Sinv) * ekfDemoState.P
          Q := ekfDemoState.Q
          R := ekfDemoState.R } :=
  ekf_update_formula (Fin 1 → ℚ) 1 transOps ekfDemoState (fun _ => 3)
    (by simp [ekfDemoState]) (by simp [ekfDemoState])
    (by
      have h : (ekfDemoState.P + ekfDemoState.R).det = 2 := by
        simp [ekfDemoState, Matrix.det_fin_one]
        norm_num
      rw [h]
      exact isUnit_iff_ne_zero.mpr two_ne_zero)

/-! ## Claim C9: launcher behavior -/

/-- C9, counterexample.  With `TIDE_RECORD_BAG` set in the environment, the
launcher still spawns no auxiliary process: the result is only the started
node list, and the environment is never consulted. -/
theorem launch_ignores_record_env :
    envRecord "TIDE_RECORD_BAG" = some "/tmp/bag" ∧
    launch_from_config regDemo envRecord cfgDemo =
      Except.ok { nodes := [{ modulePath := "components"
                              className := "PoseEstimatorNode"
                              config := ()
                              started := true }]
                  spawned := [] } := by
  exact ⟨rfl, rfl⟩

/-- The node loop of the launcher on fully resolvable entries. -/
lemma launchNodes_ok {β : Type} (reg : String → String → Bool) :
    ∀ entries : List (NodeEntry β),
      (∀ e ∈ entries, ∃ t mc, e.typePath = some t ∧
        import_class reg t = some mc) →
      ∃ ns, launchNodes reg entries = Except.ok ns ∧
        ns.length = entries.length ∧
        ∀ (i : Nat) (x : NodeEntry β), entries[i]? = some x →
          ∃ t mc, x.typePath = some t ∧ import_class reg t = some mc ∧
            ns[i]? = some { modulePath := mc.1, className := mc.2,
                            config := x.params, started := true } := by
  intro entries
  induction entries with
  | nil => intro _; exact ⟨[], rfl, rfl, by simp⟩
  | cons e rest ih =>
    intro h
    obtain ⟨t, mc, ht, hcls⟩ := h e (by simp)
    obtain ⟨ns, hns, hlen, hidx⟩ := ih (fun x hx => h x (by simp [hx]))
    refine ⟨{ modulePath := mc.1, className := mc.2, config := e.params,
              started := true } :: ns, ?_, by simp [hlen], ?_⟩
    · simp [launchNodes, ht, create_node, hcls, hns, Except.map, node_start]
    · intro i x hx
      cases i with
      | zero =>
        simp only [List.getElem?_cons_zero, Option.some_inj] at hx
        subst hx
        exact ⟨t, mc, ht, hcls, by simp⟩
      | succ i2 =>
        simp only [List.getElem?_cons_succ] at hx ⊢
        exact hidx i2 x hx

/-- C9, amended.  For a configuration whose entries all resolve,
`launch_from_config` resolves each entry's class from its dotted type path
(against the `tide.` package), instantiates it with `config = params`, calls
`start`, and appends it, in order; it returns only that node list — the
auxiliary-process trace is empty and the result does not depend on the
environment. -/
theorem launch_from_config_behavior (β : Type) (reg : String → String → Bool)
    (env env2 : String → Option String) (cfg : TideConfig β)
    (hres : ∀ e ∈ cfg.nodes, ∃ t mc, e.typePath = some t ∧
      import_class reg t = some mc) :
    ∃ r : LaunchResult β,
      launch_from_config reg env cfg = Except.ok r ∧
      r.spawned = [] ∧
      r.nodes.length = cfg.nodes.length ∧
      (∀ (i : Nat) (x : NodeEntry β), cfg.nodes[i]? = some x →
        ∃ t mc, x.typePath = some t ∧ import_class reg t = some mc ∧
          r.nodes[i]? = some { modulePath := mc.1, className := mc.2,
                               config := x.params, started := true }) ∧
      launch_from_config reg env cfg = launch_from_config reg env2 cfg := by
  obtain ⟨ns, hns, hlen, hidx⟩ := launchNodes_ok reg cfg.nodes hres
  exact ⟨{ nodes := ns, spawned := [] },
    by simp [launch_from_config, hns, Except.map], rfl, hlen, hidx, rfl⟩

/-- C9, witness for the amended statement: the one-node demo configuration,
launched under two different environments. -/
theorem launch_from_config_behavior_witness :
    ∃ r : LaunchResult Unit,
      launch_from_config regDemo envRecord cfgDemo = Except.ok r ∧
      r.spawned = [] ∧
      r.nodes.length = cfgDemo.nodes.length ∧
      (∀ (i : Nat) (x : NodeEntry Unit), cfgDemo.nodes[i]? = some x →
        ∃ t mc, x.typePath = some t ∧ import_class regDemo t = some mc ∧
          r.nodes[i]? = some { modulePath := mc.1, className := mc.2,
                               config := x.params, started := true }) ∧
      launch_from_config regDemo envRecord cfgDemo =
        launch_from_config regDemo (fun _ => none) cfgDemo :=
  launch_from_config_behavior Unit regDemo envRecord (fun _ => none) cfgDemo
    (by
      intro e he
      simp only [cfgDemo, List.mem_singleton] at he
      subst he
      exact ⟨"components.PoseEstimatorNode", ("components", "PoseEstimatorNode"),
        rfl, by decide⟩)

end Tide
